import Mathlib

/-!
Verification of the company-enricher pipeline core: the per-record
enrichment state machine, the batch/checkpoint driver, the token-bucket
rate limiter and its adaptive variant, the headcount-extraction loop,
and the caching decorator.  Python floats are modelled as exact
rationals, Python ints as `Int`/`Nat`, fallible calls as `Except`/`Option`.
-/

namespace CompanyEnricher

/-! ## Data model (src/company_enricher/utils/typing.py, enricher.py) -/

/-- The fixed-shape enrichment output record (`EnrichmentResult`). -/
structure EnrichmentResult where
  company_url : String
  description : String
  employees_2024 : String
  employees_2023 : String
  employees_2022 : String
  manufacturing_location : String
deriving DecidableEq, Repr

/-- The all-empty result initialised at the top of `_perform_enrichment`. -/
def emptyResult : EnrichmentResult :=
  { company_url := "", description := "", employees_2024 := "",
    employees_2023 := "", employees_2022 := "", manufacturing_location := "" }

/-- A registered-office address dictionary; each component may be absent. -/
structure Address where
  premises : Option String
  address_line_1 : Option String
  address_line_2 : Option String
  locality : Option String
  region : Option String
  postal_code : Option String
  country : Option String
deriving DecidableEq, Repr

/-- A company profile; `none` models a missing or empty
`registered_office_address` dict (both are falsy in `if address_parts:`). -/
structure Profile where
  registered_office_address : Option Address
deriving DecidableEq, Repr

/-- The three year-keyed headcount strings returned by
`extract_headcount_from_filings`. -/
structure Headcounts where
  employees_2024 : String
  employees_2023 : String
  employees_2022 : String
deriving DecidableEq, Repr

/-- The all-empty headcount dict initialised at the top of
`extract_headcount_from_filings`. -/
def emptyHeadcounts : Headcounts :=
  { employees_2024 := "", employees_2023 := "", employees_2022 := "" }

/-- Python truthiness of an `Optional[str]`: `None` and `""` are falsy. -/
def pyTruthyStr (o : Option String) : Option String :=
  match o with
  | none => none
  | some s => if s = "" then none else some s

/-- Python `a or b` for `a : Optional[str]`, `b : str`. -/
def pyOrStr (a : Option String) (b : String) : String :=
  match pyTruthyStr a with
  | some s => s
  | none => b

/-- `CompanyEnricher._format_address`: join the truthy components with
`", "` (Python `filter(None, parts)` drops both `None` and `""`). -/
def formatAddress (a : Address) : String :=
  String.intercalate ", "
    (([a.premises, a.address_line_1, a.address_line_2, a.locality,
       a.region, a.postal_code, a.country].filterMap id).filter (fun s => s ≠ ""))

/-! ## Per-record enrichment state machine
(`CompanyEnricher._perform_enrichment`, enricher.py lines 61-116).

Each external sub-fetch is an oracle that either returns a value or
raises (`Except.error`).  `profile` and `filings` are the two outcomes
of `asyncio.gather(..., return_exceptions=True)`: an exception there is
delivered as a value, never raised.  The later awaits (`geocoder.to_latlon`,
`web_search.find_official_site`, `website_scraper.grab_description`,
`extract_headcount_from_filings`) raise into the surrounding `try`, whose
`except` clause returns the partially-mutated `result` dict. -/

structure FetchEnv (Filing : Type) where
  profile : Except Unit Profile
  filings : Except Unit (List Filing)
  geocode : String → Except Unit (Option String)
  findSite : Except Unit (Option String)
  grabDesc : String → Except Unit String
  extractHC : List Filing → Except Unit Headcounts

/-- Step 5 of `_perform_enrichment`: merge headcounts from filings into the
result.  Skipped when the filings fetch errored or returned an empty list;
a raise inside `extract_headcount_from_filings` is caught by the outer
`try` and leaves `r` unchanged (both paths return `r`). -/
def step5 {Filing : Type} (env : FetchEnv Filing) (r : EnrichmentResult) :
    EnrichmentResult :=
  match env.filings with
  | .error _ => r
  | .ok fs =>
    if fs.isEmpty then r
    else
      match env.extractHC fs with
      | .error _ => r
      | .ok hc =>
        { r with employees_2024 := hc.employees_2024,
                 employees_2023 := hc.employees_2023,
                 employees_2022 := hc.employees_2022 }

/-- `CompanyEnricher._perform_enrichment`: the per-record state machine.
The `result` dict is threaded explicitly; every raise point returns the
partial result accumulated so far (the outer `except` clause). -/
def performEnrichment {Filing : Type} (env : FetchEnv Filing) :
    EnrichmentResult :=
  let r0 := emptyResult
  -- Step 2: registered-office address, then geocode with address fallback.
  match env.profile with
  | .error _ =>
    -- profile errored inside gather: skip step 2, continue with step 3.
    afterLoc env r0
  | .ok p =>
    match p.registered_office_address with
    | none => afterLoc env r0
    | some addr =>
      let addressStr := formatAddress addr
      match env.geocode addressStr with
      | .error _ => r0   -- geocode raised: caught by the outer except
      | .ok geocoded =>
        afterLoc env { r0 with manufacturing_location := pyOrStr geocoded addressStr }
where
  /-- Steps 3-5: website search, description scrape, headcounts. -/
  afterLoc (env : FetchEnv Filing) (r1 : EnrichmentResult) : EnrichmentResult :=
    match env.findSite with
    | .error _ => r1   -- website search raised: caught by the outer except
    | .ok website =>
      match pyTruthyStr website with
      | none => step5 env r1
      | some w =>
        let r2 := { r1 with company_url := w }
        match env.grabDesc w with
        | .error _ => r2   -- scrape raised: caught by the outer except
        | .ok d => step5 env { r2 with description := d }

/-! ## Headcount extraction from filings
(`extract_headcount_from_filings`, fetchers/companies_house.py lines 146-221). -/

/-- One filing-history item: its `made_up_date` string and the
`links["document_metadata"]` value (`""` models a missing key, the
default of `links.get("document_metadata", "")`). -/
structure Filing where
  made_up_date : String
  doc_metadata_link : String
deriving DecidableEq, Repr

/-- Abstraction of one downloaded document's bytes, carrying exactly the
observations the loop makes of it: whether the download came back empty
(`not content`), whether the first 2000 bytes sniff as iXBRL
(`b"<html xmlns" in content[:2000] or b"xbrl" in content[:2000].lower()`),
and the outcomes of the two extractors (`none` models both a `None`
return and a raised, locally-caught exception). -/
structure DocContent where
  isEmptyContent : Bool
  sniffXbrl : Bool
  ixbrl : Option Nat
  pdf : Option Nat
deriving DecidableEq, Repr

/-- The document store: `CompaniesHouseClient.get_document_content` keyed
by document id. -/
structure DocEnv where
  fetchDoc : String → DocContent

/-- `headcounts.get(f"employees_{year}")` for the three tracked years
(other keys are absent, hence falsy). -/
def hcGet (hc : Headcounts) (year : String) : String :=
  if year = "2024" then hc.employees_2024
  else if year = "2023" then hc.employees_2023
  else if year = "2022" then hc.employees_2022
  else ""

/-- `headcounts[f"employees_{year}"] = v`.  The year-membership guard in
the loop means only the three tracked keys are ever written. -/
def hcSet (hc : Headcounts) (year : String) (v : String) : Headcounts :=
  if year = "2024" then { hc with employees_2024 := v }
  else if year = "2023" then { hc with employees_2023 := v }
  else if year = "2022" then { hc with employees_2022 := v }
  else hc

/-- The per-document extraction attempt (companies_house.py lines 196-210):
`employee_count = None`; if the content sniffs as iXBRL try the iXBRL
extractor; if still `None`, try the PDF extractor. -/
def docExtract (d : DocContent) : Option Nat :=
  match (if d.sniffXbrl then d.ixbrl else none) with
  | some n => some n
  | none => d.pdf

/-- Python `link.split("/")[-1]` (`split` on a nonempty separator never
returns an empty list). -/
def lastPathComponent (s : String) : String :=
  (s.splitOn "/").getLastD ""

/-- One iteration of the `for filing in filings` loop: the chain of
`continue` guards followed by download, extraction and conditional store. -/
def processFiling (env : DocEnv) (hc : Headcounts) (f : Filing) : Headcounts :=
  if f.made_up_date = "" ∨ f.made_up_date.length < 4 then hc
  else
    let year := f.made_up_date.take 4
    if year ∉ ["2024", "2023", "2022"] then hc
    else if hcGet hc year ≠ "" then hc
    else if f.doc_metadata_link = "" then hc
    else
      let docId := lastPathComponent f.doc_metadata_link
      if docId = "" then hc
      else
        let content := env.fetchDoc docId
        if content.isEmptyContent then hc
        else
          match docExtract content with
          | some n => hcSet hc year (toString n)
          | none => hc

/-- `extract_headcount_from_filings`: fold the loop body over the filing
list, starting from the all-empty dict (the early `if not filings` return
yields the same empty dict). -/
def extractHeadcountFromFilings (env : DocEnv) (filings : List Filing) :
    Headcounts :=
  if filings.isEmpty then emptyHeadcounts
  else filings.foldl (processFiling env) emptyHeadcounts

/-- Whether a filing passes every guard before the download for a given
year: valid date of that year, tracked year, usable document link. -/
def filingEligible (f : Filing) (year : String) : Prop :=
  ¬(f.made_up_date = "" ∨ f.made_up_date.length < 4) ∧
  f.made_up_date.take 4 = year ∧
  year ∈ ["2024", "2023", "2022"] ∧
  f.doc_metadata_link ≠ "" ∧
  lastPathComponent f.doc_metadata_link ≠ ""

instance (f : Filing) (year : String) : Decidable (filingEligible f year) := by
  unfold filingEligible; infer_instance

/-- The extraction outcome one filing contributes for a year: `some n`
when the filing is eligible for that year, its document downloads
nonempty, and an extractor succeeds with `n`. -/
def filingHit (env : DocEnv) (year : String) (f : Filing) : Option Nat :=
  if filingEligible f year then
    let content := env.fetchDoc (lastPathComponent f.doc_metadata_link)
    if content.isEmptyContent then none else docExtract content
  else none

/-- First successful extraction for a year, in filing-list order. -/
def firstHit (env : DocEnv) (year : String) (filings : List Filing) :
    Option Nat :=
  filings.findSome? (filingHit env year)

/-! ## Batch driver with checkpointing
(`enrich_dataframe` and `_merge_results`, enricher.py lines 132-223, and
the resume logic of `cli.enrich`, cli.py lines 116-125).

A row is an opaque `α`; the per-record task outcome is an oracle
`α → Except Unit EnrichmentResult` (`Except.error` models the task of
`asyncio.gather(..., return_exceptions=True)` delivering an exception). -/

/-- The orchestrator's handling of one gathered outcome: an exception is
replaced by the all-empty `EnrichmentResult` (enricher.py lines 186-193). -/
def resolve {α : Type} (outcome : α → Except Unit EnrichmentResult) (c : α) :
    EnrichmentResult :=
  match outcome c with
  | .ok r => r
  | .error _ => emptyResult

/-- `for i in range(0, len(companies), checkpoint_every)` with
`companies[i:i+checkpoint_every]`: consecutive windows.  Python raises on a
zero step, so `max k 1` keeps the definition total; every theorem assumes
`1 ≤ k`, where `max k 1 = k`. -/
def chunksOf {α : Type} (k : Nat) : List α → List (List α)
  | [] => []
  | x :: xs =>
    (x :: xs).take (max k 1) :: chunksOf k ((x :: xs).drop (max k 1))
termination_by l => l.length
decreasing_by
  simp only [List.length_drop, List.length_cons]
  omega

/-- `_merge_results`: horizontal concatenation of the original rows with
the result rows, by position (callers always pass equal lengths). -/
def mergeResults {α : Type} (df : List α) (results : List EnrichmentResult) :
    List (α × EnrichmentResult) :=
  df.zip results

/-- The mutable state of the window loop: the accumulated
`enriched_results` list and the sequence of checkpoint file contents
written so far (each checkpoint overwrites the output file). -/
structure LoopState (α : Type) where
  results : List EnrichmentResult
  checkpoints : List (List (α × EnrichmentResult))

/-- One window iteration: gather the batch, append the resolved results,
then save a checkpoint of `df.slice(0, len(enriched_results))` merged with
the results whenever `i + len(batch) < len(companies) or
i + len(batch) == len(companies)` (enricher.py lines 173-205). -/
def windowStep {α : Type} (outcome : α → Except Unit EnrichmentResult)
    (df : List α) (st : LoopState α) (batch : List α) : LoopState α :=
  let results := st.results ++ batch.map (resolve outcome)
  if results.length < df.length ∨ results.length = df.length then
    { results := results,
      checkpoints :=
        st.checkpoints ++ [mergeResults (df.take results.length) results] }
  else
    { results := results, checkpoints := st.checkpoints }

/-- The window loop of `enrich_dataframe`. -/
def enrichLoop {α : Type} (outcome : α → Except Unit EnrichmentResult)
    (df : List α) (K : Nat) : LoopState α :=
  (chunksOf K df).foldl (windowStep outcome df)
    { results := [], checkpoints := [] }

/-- The DataFrame returned by `enrich_dataframe`:
`_merge_results(df, enriched_results)`. -/
def enrichDataframe {α : Type} (outcome : α → Except Unit EnrichmentResult)
    (df : List α) (K : Nat) : List (α × EnrichmentResult) :=
  mergeResults df (enrichLoop outcome df K).results

/-- Output-file content once a run completes: the last checkpoint write
(each write is a full overwrite); with no window there is no write and the
prior file content `file0` survives. -/
def fileAfterRun {α : Type} (outcome : α → Except Unit EnrichmentResult)
    (df : List α) (K : Nat) (file0 : List (α × EnrichmentResult)) :
    List (α × EnrichmentResult) :=
  (enrichLoop outcome df K).checkpoints.getLastD file0

/-- Output-file content when the process is killed right after the second
checkpoint write. -/
def fileAfterTwoCheckpoints {α : Type}
    (outcome : α → Except Unit EnrichmentResult) (df : List α) (K : Nat) :
    List (α × EnrichmentResult) :=
  (enrichLoop outcome df K).checkpoints.getD 1 []

/-- The `--resume` path of `cli.enrich` followed by the re-run:
`start_row = len(existing_df)`, `df = df.slice(start_row)`, then
`enrich_dataframe` runs over the sliced input, its checkpoints
overwriting the existing file. -/
def cliResumeRun {α : Type} (outcome : α → Except Unit EnrichmentResult)
    (df : List α) (K : Nat) (file0 : List (α × EnrichmentResult)) :
    List (α × EnrichmentResult) :=
  fileAfterRun outcome (df.drop file0.length) K file0

/-! ## Token-bucket rate limiter
(`RateLimiter`, pipeline/rate_limiter.py lines 11-72).  Wall-clock floats
become exact rationals; `time.time()` readings enter as explicit `now`
arguments. -/

/-- Python `int()` on a rational: truncation toward zero. -/
def pyInt (q : ℚ) : ℤ :=
  if 0 ≤ q then ⌊q⌋ else -⌊-q⌋

structure RateLimiter where
  max_rate : ℚ
  burst_size : ℤ
  tokens : ℚ
  last_update : ℚ
deriving DecidableEq, Repr

/-- `RateLimiter.__init__(max_rate)` with `burst_size` left `None` (the
`burst_size or max(1, int(max_rate * 2))` default), constructed at time
`t0`. -/
def RateLimiter.mkDefault (max_rate : ℚ) (t0 : ℚ) : RateLimiter :=
  let burst := max 1 (pyInt (max_rate * 2))
  { max_rate := max_rate, burst_size := burst,
    tokens := (burst : ℚ), last_update := t0 }

/-- `RateLimiter.acquire(tokens=cost)` observed at wall-clock time `now`:
refill capped at the burst size, stamp `last_update`, and if short of
tokens sleep and set the bucket to exactly `cost`, then debit `cost`.
(The sleep itself does not advance `last_update`.) -/
def RateLimiter.acquire (rl : RateLimiter) (now : ℚ) (cost : ℤ) :
    RateLimiter :=
  let elapsed := now - rl.last_update
  let refilled := min (rl.burst_size : ℚ) (rl.tokens + elapsed * rl.max_rate)
  let afterWait := if refilled < (cost : ℚ) then (cost : ℚ) else refilled
  { rl with tokens := afterWait - (cost : ℚ), last_update := now }

/-- `RateLimiter.available_tokens()` read at wall-clock time `now`. -/
def RateLimiter.availableTokens (rl : RateLimiter) (now : ℚ) : ℤ :=
  pyInt (min (rl.burst_size : ℚ)
    (rl.tokens + (now - rl.last_update) * rl.max_rate))

/-- A sequence of `acquire` calls, each a `(now, cost)` pair. -/
def RateLimiter.acquireSeq (rl : RateLimiter) (calls : List (ℚ × ℤ)) :
    RateLimiter :=
  calls.foldl (fun s c => s.acquire c.1 c.2) rl

/-- The bucket-state invariant: `tokens ∈ [0, burst_size]`. -/
def RateLimiter.Inv (rl : RateLimiter) : Prop :=
  0 ≤ rl.tokens ∧ rl.tokens ≤ (rl.burst_size : ℚ)

/-! ## Adaptive rate limiter
(`AdaptiveRateLimiter`, pipeline/rate_limiter.py lines 75-111).  The class
reuses the inherited `max_rate` attribute as the adaptive ceiling, so a
rate change rewrites the ceiling too.  Python's float literal `1.1` is
modelled as the exact rational `11/10`. -/

structure AdaptiveRateLimiter where
  base : RateLimiter
  min_rate : ℚ
  current_rate : ℚ
  consecutive_successes : Nat
  recent_failures : Nat
deriving DecidableEq, Repr

/-- `AdaptiveRateLimiter.__init__(initial_rate, min_rate, max_rate)` at
time `t0`: `super().__init__(initial_rate)` sets the bucket (burst from
`initial_rate`), then `self.max_rate = max_rate` overwrites the inherited
refill-rate attribute with the ceiling. -/
def AdaptiveRateLimiter.mk0 (initial_rate min_rate max_rate t0 : ℚ) :
    AdaptiveRateLimiter :=
  { base := { RateLimiter.mkDefault initial_rate t0 with max_rate := max_rate },
    min_rate := min_rate, current_rate := initial_rate,
    consecutive_successes := 0, recent_failures := 0 }

/-- `AdaptiveRateLimiter.record_success()`.  `max(0, rf - 1)` coincides
with truncated `Nat` subtraction. -/
def AdaptiveRateLimiter.recordSuccess (a : AdaptiveRateLimiter) :
    AdaptiveRateLimiter :=
  let cs := a.consecutive_successes + 1
  let rf := a.recent_failures - 1
  if 10 ≤ cs then
    let newRate := min a.base.max_rate (a.current_rate * (11 / 10))
    if newRate ≠ a.current_rate then
      { a with base := { a.base with max_rate := newRate },
               current_rate := newRate,
               consecutive_successes := 0, recent_failures := rf }
    else
      { a with consecutive_successes := 0, recent_failures := rf }
  else
    { a with consecutive_successes := cs, recent_failures := rf }

/-- `AdaptiveRateLimiter.record_failure(is_rate_limit)`. -/
def AdaptiveRateLimiter.recordFailure (a : AdaptiveRateLimiter)
    (is_rate_limit : Bool) : AdaptiveRateLimiter :=
  let rf := a.recent_failures + 1
  if is_rate_limit ∨ 3 ≤ rf then
    let newRate := max a.min_rate (a.current_rate * (1 / 2))
    if newRate ≠ a.current_rate then
      { a with base := { a.base with max_rate := newRate },
               current_rate := newRate,
               consecutive_successes := 0, recent_failures := rf }
    else
      { a with consecutive_successes := 0, recent_failures := rf }
  else
    { a with consecutive_successes := 0, recent_failures := rf }

/-! ## Concurrency bound of the orchestrator
(`CompanyEnricher.__init__` creates one `asyncio.Semaphore(concurrency)`;
`enrich_single_company` does `async with self.semaphore:` around the whole
of `_perform_enrichment`; one `CompanyEnricher` instance lives across all
windows of a run).  Modelled as a transition system over the whole run's
task set: a task moves to `running` only by taking a slot of the single
semaphore, and returns the slot only when its enrichment finishes. -/

inductive TaskPhase where
  | pending
  | running
  | done
deriving DecidableEq, BEq, Repr

/-- A scheduler state: free semaphore slots plus the phase of every
per-record task of the entire run (all windows). -/
structure SemState where
  sem : Nat
  tasks : List TaskPhase
deriving DecidableEq, BEq, Repr

/-- Run start: all `concurrency` slots free, every record's task pending. -/
def initState (concurrency n : Nat) : SemState :=
  { sem := concurrency, tasks := List.replicate n TaskPhase.pending }

/-- One scheduler transition: `start` is the semaphore acquire guarding
entry to `_perform_enrichment` (enabled only with a free slot), `finish`
is the release on exit of the `async with` block. -/
inductive SemStep : SemState → SemState → Prop where
  | start (s : SemState) (i : Nat) (hi : s.tasks.get? i = some .pending)
      (hs : 0 < s.sem) :
      SemStep s { sem := s.sem - 1, tasks := s.tasks.set i .running }
  | finish (s : SemState) (i : Nat) (hi : s.tasks.get? i = some .running) :
      SemStep s { sem := s.sem + 1, tasks := s.tasks.set i .done }

/-- States reachable during a run with `concurrency` slots and `n` records. -/
def Reachable (concurrency n : Nat) (s : SemState) : Prop :=
  Relation.ReflTransGen SemStep (initState concurrency n) s

/-- Number of records currently inside `_perform_enrichment`. -/
def runningCount (s : SemState) : Nat :=
  s.tasks.countP (fun t => t = TaskPhase.running)

/-! ## Caching decorator (`cached`, cache.py lines 29-80).
The disk cache maps a key to a stored Python value, itself possibly
`None`; `cache.get(key)` returns its default `None` both on a missing key
and on a stored `None`, and the wrapper treats any `None` from the cache
as a miss (`if result is not None: return result`). -/

/-- Outcome of one call through the `cached` wrapper: the returned value,
whether the wrapped function body was invoked, and the cache afterwards. -/
structure CachedOutcome (α V : Type) where
  value : Option V
  invoked : Bool
  cache : α → Option (Option V)

/-- One call through the wrapper produced by `cached` for a function `f`:
read the cache (`None` means miss *or* stored `None`), return a non-`None`
hit, otherwise invoke `f` and store its result — including a `None`
result. -/
def cachedCall {α V : Type} [DecidableEq α] (f : α → Option V)
    (c : α → Option (Option V)) (a : α) : CachedOutcome α V :=
  match (c a).join with
  | some v => { value := some v, invoked := false, cache := c }
  | none =>
    let r := f a
    { value := r, invoked := true,
      cache := fun x => if x = a then some r else c x }

/-- A cache state is consistent with `f` when every stored entry is the
value `f` computes for that key — true of the empty cache and preserved by
the wrapper. -/
def CacheConsistent {α V : Type} (f : α → Option V)
    (c : α → Option (Option V)) : Prop :=
  ∀ a v, c a = some v → v = f a

/-! ## Spec-side definitions and small helpers for the theorems. -/

/-- Modelled from the spec (§4.1): the *claimed* default burst size
`max(1, round(max_rate * 2))`, using rounding to nearest — to be compared
with the source's `max(1, int(max_rate * 2))` in `RateLimiter.mkDefault`.
(Python's `round` ties to even; the comparison point below is not a tie,
so Mathlib's `round` agrees there.) -/
def specClaimDefaultBurst (max_rate : ℚ) : ℤ :=
  max 1 (round (max_rate * 2))

/-- Render an optional extraction hit the way the loop stores it:
`str(employee_count)` on success, the empty default otherwise. -/
def hitValue (o : Option Nat) : String :=
  match o with
  | some n => toString n
  | none => ""

/-! # Theorems -/

/-- C6: for the input record whose profile carries a registered-office
address formatting to "1 Main St, London, EC1 1AA", with the geocoder
returning None, the website search returning None and the filings list
empty, every field of the enrichment result is empty except location,
which is the plain formatted address (the geocode fallback). -/
theorem c6_geocode_fallback_example :
    performEnrichment
      ({ profile := Except.ok (Profile.mk (some (Address.mk none
           (some "1 Main St") none (some "London") none
           (some "EC1 1AA") none))),
         filings := .ok [],
         geocode := fun _ => .ok none,
         findSite := .ok none,
         grabDesc := fun _ => .ok "",
         extractHC := fun _ => .ok emptyHeadcounts } : FetchEnv Filing) =
      { emptyResult with manufacturing_location := "1 Main St, London, EC1 1AA" } := by
  rfl

/-- C8 counterexample: at max_rate = 1.3 the source's default burst size is
`max(1, int(1.3 * 2)) = 2` (truncation), while the claimed formula
`max(1, round(1.3 * 2))` gives 3. -/
theorem c8_default_burst_counterexample :
    (RateLimiter.mkDefault (13 / 10) 0).burst_size = 2 ∧
    specClaimDefaultBurst (13 / 10) = 3 ∧ (2 : ℤ) ≠ 3 := by
  refine ⟨?_, ?_, by decide⟩
  · norm_num [RateLimiter.mkDefault, pyInt]
  · norm_num [specClaimDefaultBurst, round_eq]

/-- C8 (amended): constructing a RateLimiter without an explicit burst size
sets `burst_size = max(1, int(max_rate * 2))`, i.e. the floor of
`max_rate * 2` for positive rates (Python `int()` truncation), not rounding
to nearest; the default burst is always at least 1. -/
theorem c8_default_burst_floor (r t0 : ℚ) (hr : 0 < r) :
    (RateLimiter.mkDefault r t0).burst_size = max 1 ⌊r * 2⌋ ∧
    1 ≤ (RateLimiter.mkDefault r t0).burst_size := by
  have h2 : (0 : ℚ) ≤ r * 2 := by positivity
  refine ⟨?_, le_max_left _ _⟩
  simp [RateLimiter.mkDefault, pyInt, h2]

/-- Witness for `c8_default_burst_floor` at max_rate = 1.3. -/
theorem c8_default_burst_floor_witness :
    (0 : ℚ) < 13 / 10 ∧
    ((RateLimiter.mkDefault (13 / 10) 0).burst_size = max 1 ⌊(13 / 10 : ℚ) * 2⌋ ∧
     1 ≤ (RateLimiter.mkDefault (13 / 10) 0).burst_size) :=
  ⟨by norm_num, c8_default_burst_floor (13 / 10) 0 (by norm_num)⟩

/-- C10: a memoized None is indistinguishable from a cache miss.  The
wrapper serves a stored value only when it is non-None; when the wrapped
function returns None for an argument the wrapper invokes it and returns
None, the cache stays consistent, and the immediately following call with
the same argument invokes the function again instead of serving the store. -/
lemma cachedCall_hit {α V : Type} [DecidableEq α] {f : α → Option V}
    {c : α → Option (Option V)} {a : α} {v : V} (h : c a = some (some v)) :
    cachedCall f c a = { value := some v, invoked := false, cache := c } := by
  simp [cachedCall, h]

lemma cachedCall_miss {α V : Type} [DecidableEq α] {f : α → Option V}
    {c : α → Option (Option V)} {a : α}
    (h : c a = none ∨ c a = some none) :
    cachedCall f c a =
      { value := f a, invoked := true,
        cache := fun x => if x = a then some (f a) else c x } := by
  rcases h with h | h <;> simp [cachedCall, h]

theorem c10_memoized_none_is_miss {α V : Type} [DecidableEq α]
    (f : α → Option V) (c : α → Option (Option V)) (a : α)
    (hc : CacheConsistent f c) :
    ((cachedCall f c a).invoked = false →
      ∃ v, (cachedCall f c a).value = some v) ∧
    (f a = none →
      (cachedCall f c a).invoked = true ∧ (cachedCall f c a).value = none) ∧
    CacheConsistent f (cachedCall f c a).cache ∧
    (f a = none →
      (cachedCall f (cachedCall f c a).cache a).invoked = true) := by
  rcases hca : c a with _ | w
  case some =>
    rcases w with _ | v
    case some =>
      -- a stored non-None value: the call is served from the cache.
      have hv : some v = f a := hc a (some v) hca
      rw [cachedCall_hit hca]
      refine ⟨fun _ => ⟨v, rfl⟩, fun hf => ?_, hc, fun hf => ?_⟩
      · rw [← hv] at hf; exact absurd hf (by simp)
      · rw [← hv] at hf; exact absurd hf (by simp)
    case none =>
      -- a stored None reads back as None: treated as a miss.
      rw [cachedCall_miss (Or.inr hca)]
      refine ⟨fun h => by simp at h, fun hf => ⟨rfl, hf⟩, ?_, fun hf => ?_⟩
      · intro x v hx
        by_cases hxa : x = a
        · subst hxa; simp at hx; exact hx.symm
        · exact hc x v (by simpa [hxa] using hx)
      · rw [cachedCall_miss (Or.inr (by simp [hf]))]
  case none =>
    rw [cachedCall_miss (Or.inl hca)]
    refine ⟨fun h => by simp at h, fun hf => ⟨rfl, hf⟩, ?_, fun hf => ?_⟩
    · intro x v hx
      by_cases hxa : x = a
      · subst hxa; simp at hx; exact hx.symm
      · exact hc x v (by simpa [hxa] using hx)
    · rw [cachedCall_miss (Or.inr (by simp [hf]))]

/-- Witness for `c10_memoized_none_is_miss`: an always-None function over
an empty cache is invoked and its result is not served from the cache. -/
theorem c10_memoized_none_is_miss_witness :
    (cachedCall (fun _ : Nat => (none : Option Nat)) (fun _ => none) 0).invoked
        = true ∧
    (cachedCall (fun _ : Nat => (none : Option Nat)) (fun _ => none) 0).value
        = none :=
  (c10_memoized_none_is_miss (fun _ => none) (fun _ => none) 0
    (fun _ _ h => Option.noConfusion h)).2.1 rfl

lemma recordSuccess_fixpoint {a : AdaptiveRateLimiter}
    (hmax : a.base.max_rate = a.current_rate) (h0 : 0 ≤ a.current_rate) :
    a.recordSuccess.current_rate = a.current_rate ∧
    a.recordSuccess.base.max_rate = a.base.max_rate := by
  have hmin : min a.base.max_rate (a.current_rate * (11 / 10)) = a.current_rate := by
    rw [hmax]
    exact min_eq_left (by linarith)
  simp only [AdaptiveRateLimiter.recordSuccess]
  split_ifs with h1 h2
  · exact absurd hmin h2
  · exact ⟨rfl, rfl⟩
  · exact ⟨rfl, rfl⟩

lemma recordSuccess_iterate_fixpoint {a : AdaptiveRateLimiter}
    (hmax : a.base.max_rate = a.current_rate) (h0 : 0 ≤ a.current_rate)
    (n : Nat) :
    (AdaptiveRateLimiter.recordSuccess^[n] a).current_rate = a.current_rate ∧
    (AdaptiveRateLimiter.recordSuccess^[n] a).base.max_rate = a.base.max_rate := by
  induction n with
  | zero => exact ⟨rfl, rfl⟩
  | succ n ih =>
    rw [Function.iterate_succ_apply']
    have hmax' : (AdaptiveRateLimiter.recordSuccess^[n] a).base.max_rate =
        (AdaptiveRateLimiter.recordSuccess^[n] a).current_rate := by
      rw [ih.1, ih.2, hmax]
    have h0' : 0 ≤ (AdaptiveRateLimiter.recordSuccess^[n] a).current_rate := by
      rw [ih.1]; exact h0
    obtain ⟨e1, e2⟩ := recordSuccess_fixpoint hmax' h0'
    exact ⟨by rw [e1, ih.1], by rw [e2, ih.2]⟩

lemma recordSuccess_count_step {a : AdaptiveRateLimiter}
    (h : a.consecutive_successes + 1 < 10) :
    a.recordSuccess =
      { a with consecutive_successes := a.consecutive_successes + 1,
               recent_failures := a.recent_failures - 1 } := by
  simp only [AdaptiveRateLimiter.recordSuccess]
  rw [if_neg (by omega)]

lemma recordSuccess_iterate_count {a : AdaptiveRateLimiter} (k : Nat)
    (hrf : a.recent_failures = 0) (h : a.consecutive_successes + k < 10) :
    AdaptiveRateLimiter.recordSuccess^[k] a =
      { a with consecutive_successes := a.consecutive_successes + k } := by
  induction k with
  | zero => rfl
  | succ k ih =>
    rw [Function.iterate_succ_apply', ih (by omega),
      recordSuccess_count_step (by simp; omega)]
    cases a
    simp_all
    omega

/-- The explicit state reached by ten successes from
`mk0 1 (1/10) 2 0`: the rate climbed once to 1.1 and the stored ceiling
collapsed onto it. -/
lemma recordSuccess_ten_from_one :
    AdaptiveRateLimiter.recordSuccess^[10]
        (AdaptiveRateLimiter.mk0 1 (1 / 10) 2 0) =
      { base := { (AdaptiveRateLimiter.mk0 1 (1 / 10) 2 0).base with
                    max_rate := 11 / 10 },
        min_rate := 1 / 10, current_rate := 11 / 10,
        consecutive_successes := 0, recent_failures := 0 } := by
  rw [show (10 : ℕ) = 9 + 1 from rfl, Function.iterate_succ_apply',
    recordSuccess_iterate_count 9 rfl (by show 0 + 9 < 10; norm_num)]
  simp only [AdaptiveRateLimiter.recordSuccess]
  have hmin : min (AdaptiveRateLimiter.mk0 1 (1 / 10) 2 0).base.max_rate
      ((AdaptiveRateLimiter.mk0 1 (1 / 10) 2 0).current_rate * (11 / 10)) =
      11 / 10 := by
    show min (2 : ℚ) (1 * (11 / 10)) = 11 / 10
    norm_num
  rw [if_pos (by omega), hmin,
    show (AdaptiveRateLimiter.mk0 1 (1 / 10) 2 0).current_rate = 1 from rfl,
    if_pos (show ((11 : ℚ) / 10 ≠ 1) by norm_num)]
  rfl

/-- C4 counterexample: with initial_rate = 1 and a configured ceiling of 2,
the first run of 10 successes lifts current_rate to 1.1, but a second run
of 10 successes leaves it at 1.1 instead of the claimed further 10% climb
to min(2, 1.1 * 1.1) = 1.21, because the climb also overwrote the ceiling. -/
theorem c4_adaptive_climb_counterexample :
    (AdaptiveRateLimiter.recordSuccess^[10]
        (AdaptiveRateLimiter.mk0 1 (1 / 10) 2 0)).current_rate = 11 / 10 ∧
    (AdaptiveRateLimiter.recordSuccess^[20]
        (AdaptiveRateLimiter.mk0 1 (1 / 10) 2 0)).current_rate = 11 / 10 ∧
    ((11 : ℚ) / 10) ≠ min 2 ((11 / 10) * (11 / 10)) := by
  have h20 : (AdaptiveRateLimiter.recordSuccess^[20]
      (AdaptiveRateLimiter.mk0 1 (1 / 10) 2 0)).current_rate = 11 / 10 := by
    rw [show (20 : ℕ) = 10 + 10 from rfl, Function.iterate_add_apply,
      recordSuccess_ten_from_one]
    exact (recordSuccess_iterate_fixpoint rfl (by norm_num) 10).1
  refine ⟨by rw [recordSuccess_ten_from_one], h20, by norm_num⟩

/-- C4 (amended): the 10th consecutive record_success() sets current_rate to
min(ceiling, current_rate * 1.1) and resets consecutive_successes to 0, but
any actual climb also lowers the stored ceiling (`max_rate`) to the new
current_rate, so once ceiling = current_rate no further run of successes
changes the rate; current_rate never exceeds the ceiling in force. -/
theorem c4_adaptive_climb_selfcap (a : AdaptiveRateLimiter) :
    (a.recordSuccess.consecutive_successes =
      if 10 ≤ a.consecutive_successes + 1 then 0
      else a.consecutive_successes + 1) ∧
    (a.consecutive_successes = 9 →
      a.recordSuccess.current_rate =
        min a.base.max_rate (a.current_rate * (11 / 10))) ∧
    (a.consecutive_successes = 9 →
      a.recordSuccess.current_rate ≠ a.current_rate →
      a.recordSuccess.base.max_rate = a.recordSuccess.current_rate) ∧
    (a.base.max_rate = a.current_rate → 0 ≤ a.current_rate →
      ∀ n, (AdaptiveRateLimiter.recordSuccess^[n] a).current_rate
        = a.current_rate) ∧
    (a.current_rate ≤ a.base.max_rate →
      a.recordSuccess.current_rate ≤ a.base.max_rate) := by
  refine ⟨?_, ?_, ?_, ?_, ?_⟩
  · simp only [AdaptiveRateLimiter.recordSuccess]
    split_ifs <;> rfl
  · intro h9
    have h10 : 10 ≤ a.consecutive_successes + 1 := by omega
    simp only [AdaptiveRateLimiter.recordSuccess]
    split_ifs with h1
    · rfl
    · exact (not_not.mp h1).symm
  · intro h9 hne
    have h10 : 10 ≤ a.consecutive_successes + 1 := by omega
    simp only [AdaptiveRateLimiter.recordSuccess] at hne ⊢
    split_ifs at hne ⊢ with h1
    · rfl
    · exact absurd rfl hne
  · intro hmax h0 n
    exact (recordSuccess_iterate_fixpoint hmax h0 n).1
  · intro hle
    simp only [AdaptiveRateLimiter.recordSuccess]
    split_ifs with h1 h2
    · exact min_le_left _ _
    · exact hle
    · exact hle

/-- Witness for `c4_adaptive_climb_selfcap`: a limiter at rate 1 with
ceiling 2 and 9 banked successes climbs to min(2, 1.1) on the next success,
and a limiter whose ceiling already equals its rate never moves. -/
theorem c4_adaptive_climb_selfcap_witness :
    ({ AdaptiveRateLimiter.mk0 1 (1 / 10) 2 0 with
        consecutive_successes := 9 } :
        AdaptiveRateLimiter).recordSuccess.current_rate =
      min 2 (1 * (11 / 10)) ∧
    (AdaptiveRateLimiter.recordSuccess^[5]
        (AdaptiveRateLimiter.mk0 1 (1 / 10) 1 0)).current_rate = 1 :=
  ⟨(c4_adaptive_climb_selfcap _).2.1 rfl,
   (c4_adaptive_climb_selfcap _).2.2.2.1 rfl (show (0 : ℚ) ≤ 1 by norm_num) 5⟩

lemma acquire_inv {rl : RateLimiter} (now : ℚ) {cost : ℤ} (hc : 0 ≤ cost)
    (h : rl.Inv) : (rl.acquire now cost).Inv := by
  obtain ⟨h0, hb⟩ := h
  have hcq : (0 : ℚ) ≤ (cost : ℚ) := by exact_mod_cast hc
  have hb0 : (0 : ℚ) ≤ (rl.burst_size : ℚ) := le_trans h0 hb
  have hminb : min (rl.burst_size : ℚ)
      (rl.tokens + (now - rl.last_update) * rl.max_rate) ≤
      (rl.burst_size : ℚ) := min_le_left _ _
  simp only [RateLimiter.acquire, RateLimiter.Inv]
  constructor <;> split_ifs with hlt
  · linarith
  · have := not_lt.mp hlt
    linarith
  · linarith
  · linarith

lemma acquireSeq_inv {rl : RateLimiter} {calls : List (ℚ × ℤ)}
    (hc : ∀ p ∈ calls, 0 ≤ p.2) (h : rl.Inv) : (rl.acquireSeq calls).Inv := by
  induction calls generalizing rl with
  | nil => exact h
  | cons p ps ih =>
    exact ih (fun q hq => hc q (List.mem_cons_of_mem _ hq))
      (acquire_inv p.1 (hc p (List.mem_cons_self _ _)) h)

lemma acquireSeq_preserves (rl : RateLimiter) (calls : List (ℚ × ℤ)) :
    (rl.acquireSeq calls).burst_size = rl.burst_size ∧
    (rl.acquireSeq calls).max_rate = rl.max_rate := by
  induction calls generalizing rl with
  | nil => exact ⟨rfl, rfl⟩
  | cons p ps ih => exact ih (rl.acquire p.1 p.2)

lemma availableTokens_bounds {rl : RateLimiter} (hinv : rl.Inv) {now : ℚ}
    (hnow : rl.last_update ≤ now) (hrate : 0 ≤ rl.max_rate) :
    0 ≤ rl.availableTokens now ∧ rl.availableTokens now ≤ rl.burst_size := by
  obtain ⟨h0, hb⟩ := hinv
  have hadd : 0 ≤ rl.tokens + (now - rl.last_update) * rl.max_rate := by
    have := mul_nonneg (show (0 : ℚ) ≤ now - rl.last_update by linarith) hrate
    linarith
  have hb0 : (0 : ℚ) ≤ (rl.burst_size : ℚ) := le_trans h0 hb
  have hmin0 : 0 ≤ min (rl.burst_size : ℚ)
      (rl.tokens + (now - rl.last_update) * rl.max_rate) := le_min hb0 hadd
  have hminb : min (rl.burst_size : ℚ)
      (rl.tokens + (now - rl.last_update) * rl.max_rate) ≤
      (rl.burst_size : ℚ) := min_le_left _ _
  simp only [RateLimiter.availableTokens, pyInt]
  rw [if_pos hmin0]
  refine ⟨Int.floor_nonneg.mpr hmin0, ?_⟩
  calc ⌊min (rl.burst_size : ℚ)
        (rl.tokens + (now - rl.last_update) * rl.max_rate)⌋
      ≤ ⌊(rl.burst_size : ℚ)⌋ := Int.floor_le_floor hminb
    _ = rl.burst_size := Int.floor_intCast _

lemma mkDefault_inv (r t0 : ℚ) : (RateLimiter.mkDefault r t0).Inv := by
  have h1 : (1 : ℤ) ≤ max 1 (pyInt (r * 2)) := le_max_left _ _
  have h0 : (0 : ℚ) ≤ ((max 1 (pyInt (r * 2)) : ℤ) : ℚ) := by
    exact_mod_cast le_trans (zero_le_one (α := ℤ)) h1
  exact ⟨h0, le_refl _⟩

/-- C3: for every rate limiter satisfying the bucket invariant and every
sequence of `acquire(cost)` calls with nonnegative costs, the token count
stays within [0, burst_size] (it never exceeds burst_size after a refill
and never goes negative after a successful acquire), `available_tokens()`
read at any later time never returns a value above burst_size or below
zero, and a freshly constructed limiter satisfies the invariant (so the
bound covers every prefix of every call sequence from construction). -/
theorem c3_token_bucket_bounds (rl : RateLimiter) (calls : List (ℚ × ℤ))
    (hinv : rl.Inv) (hcost : ∀ p ∈ calls, 0 ≤ p.2) (now : ℚ)
    (hnow : (rl.acquireSeq calls).last_update ≤ now)
    (hrate : 0 ≤ rl.max_rate) :
    (rl.acquireSeq calls).Inv ∧
    0 ≤ (rl.acquireSeq calls).availableTokens now ∧
    (rl.acquireSeq calls).availableTokens now ≤ rl.burst_size ∧
    (RateLimiter.mkDefault rl.max_rate rl.last_update).Inv := by
  have hinv' := acquireSeq_inv hcost hinv
  have hpres := acquireSeq_preserves rl calls
  have hrate' : 0 ≤ (rl.acquireSeq calls).max_rate := by rw [hpres.2]; exact hrate
  have hbounds := availableTokens_bounds hinv' hnow hrate'
  exact ⟨hinv', hbounds.1, by rw [← hpres.1]; exact hbounds.2,
    mkDefault_inv rl.max_rate rl.last_update⟩

/-- Witness for `c3_token_bucket_bounds`: a limiter at 2 QPS (default
burst 4) after two unit acquires, observed at time 2. -/
theorem c3_token_bucket_bounds_witness :
    ((RateLimiter.mkDefault 2 0).acquireSeq [(0, 1), (1, 1)]).Inv ∧
    0 ≤ ((RateLimiter.mkDefault 2 0).acquireSeq [(0, 1), (1, 1)]).availableTokens 2 ∧
    ((RateLimiter.mkDefault 2 0).acquireSeq [(0, 1), (1, 1)]).availableTokens 2 ≤
      (RateLimiter.mkDefault 2 0).burst_size ∧
    (RateLimiter.mkDefault (RateLimiter.mkDefault 2 0).max_rate
      (RateLimiter.mkDefault 2 0).last_update).Inv :=
  c3_token_bucket_bounds (RateLimiter.mkDefault 2 0) [(0, 1), (1, 1)]
    (mkDefault_inv 2 0) (by norm_num) 2 (show (1 : ℚ) ≤ 2 by norm_num)
    (show (0 : ℚ) ≤ 2 by norm_num)

lemma runningCount_set (l : List TaskPhase) (i : Nat) (a b : TaskPhase)
    (h : l.get? i = some a) :
    (l.set i b).countP (fun t => t = TaskPhase.running) +
        (if a = TaskPhase.running then 1 else 0) =
      l.countP (fun t => t = TaskPhase.running) +
        (if b = TaskPhase.running then 1 else 0) := by
  induction l generalizing i with
  | nil => simp at h
  | cons x xs ih =>
    cases i with
    | zero =>
      simp only [List.get?_cons_zero, Option.some.injEq] at h
      subst h
      simp only [List.set_cons_zero, List.countP_cons]
      split_ifs <;> simp_all
    | succ j =>
      simp only [List.get?_cons_succ] at h
      have hx := ih j h
      simp only [List.set_cons_succ, List.countP_cons]
      omega

lemma countP_replicate_pending (n : Nat) :
    (List.replicate n TaskPhase.pending).countP
      (fun t => t = TaskPhase.running) = 0 := by
  induction n with
  | zero => rfl
  | succ n ih => simp [List.replicate_succ, List.countP_cons, ih]

lemma semStep_invariant {C : Nat} {s t : SemState} (hstep : SemStep s t)
    (hinv : runningCount s + s.sem = C) : runningCount t + t.sem = C := by
  cases hstep with
  | start i hi hs =>
    have hc := runningCount_set s.tasks i _ TaskPhase.running hi
    simp at hc
    simp only [runningCount] at *
    omega
  | finish i hi =>
    have hc := runningCount_set s.tasks i _ TaskPhase.done hi
    simp at hc
    simp only [runningCount] at *
    omega

/-- C9: during an entire run (all windows) with a single semaphore of
`concurrency` slots acquired on entry to each record's enrichment and
released only when it finishes, every reachable scheduler state has at
most `concurrency` records inside `_perform_enrichment` simultaneously. -/
theorem c9_concurrency_bound (concurrency n : Nat) (s : SemState)
    (h : Reachable concurrency n s) : runningCount s ≤ concurrency := by
  have key : runningCount s + s.sem = concurrency := by
    induction h with
    | refl => simp [runningCount, initState, countP_replicate_pending]
    | tail h1 hstep ih => exact semStep_invariant hstep ih
  omega

/-- Witness for `c9_concurrency_bound`: a run of 3 records with 2 slots,
after one record entered enrichment. -/
theorem c9_concurrency_bound_witness :
    runningCount ({ sem := 1,
                    tasks := (List.replicate 3 TaskPhase.pending).set 0
                      TaskPhase.running } : SemState) ≤ 2 :=
  c9_concurrency_bound 2 3 _
    (Relation.ReflTransGen.single
      (SemStep.start (initState 2 3) 0 rfl (by decide)))

lemma windowStep_results {A : Type} (outcome : A -> Except Unit EnrichmentResult)
    (df : List A) (st : LoopState A) (batch : List A) :
    (windowStep outcome df st batch).results =
      st.results ++ batch.map (resolve outcome) := by
  simp only [windowStep]
  split_ifs <;> rfl

lemma foldl_windowStep_results {A : Type}
    (outcome : A -> Except Unit EnrichmentResult) (df : List A)
    (chunks : List (List A)) :
    ∀ st : LoopState A,
      (chunks.foldl (windowStep outcome df) st).results =
        st.results ++ chunks.flatten.map (resolve outcome) := by
  induction chunks with
  | nil => intro st; simp
  | cons b bs ih =>
    intro st
    simp only [List.foldl_cons, List.flatten_cons, List.map_append]
    rw [ih, windowStep_results, List.append_assoc]

lemma chunksOf_flatten {A : Type} (k : Nat) : ∀ l : List A, (chunksOf k l).flatten = l
  | [] => by simp [chunksOf]
  | x :: xs => by
    rw [chunksOf]
    simp only [List.flatten_cons]
    rw [chunksOf_flatten k ((x :: xs).drop (max k 1))]
    exact List.take_append_drop _ _
termination_by l => l.length
decreasing_by simp only [List.length_drop, List.length_cons]; omega

lemma enrichLoop_results {A : Type} (outcome : A -> Except Unit EnrichmentResult)
    (df : List A) (K : Nat) :
    (enrichLoop outcome df K).results = df.map (resolve outcome) := by
  unfold enrichLoop
  rw [foldl_windowStep_results, chunksOf_flatten]
  rfl

lemma enrichDataframe_eq_map {A : Type}
    (outcome : A -> Except Unit EnrichmentResult) (df : List A) (K : Nat) :
    enrichDataframe outcome df K = df.map (fun c => (c, resolve outcome c)) := by
  unfold enrichDataframe mergeResults
  rw [enrichLoop_results]
  calc df.zip (df.map (resolve outcome))
      = (df.map id).zip (df.map (resolve outcome)) := by rw [List.map_id]
    _ = df.map (fun c => (id c, resolve outcome c)) :=
        List.zip_map' id (resolve outcome) df
    _ = df.map (fun c => (c, resolve outcome c)) := rfl

/-- C2: for every input of N rows and any subset of per-record tasks
failing, `enrich_dataframe` returns exactly N rows; row i pairs input row
i with its six enrichment fields, and a failed record yields the all-empty
result rather than a missing row. -/
theorem c2_row_count_and_order {A : Type}
    (outcome : A -> Except Unit EnrichmentResult) (df : List A) (K : Nat)
    (hK : 1 ≤ K) :
    (enrichDataframe outcome df K).length = df.length ∧
    (∀ i : Nat, (enrichDataframe outcome df K)[i]? =
      (df[i]?).map (fun c => (c, resolve outcome c))) ∧
    (∀ c, outcome c = .error () → resolve outcome c = emptyResult) := by
  refine ⟨?_, ?_, ?_⟩
  · rw [enrichDataframe_eq_map, List.length_map]
  · intro i
    rw [enrichDataframe_eq_map, List.getElem?_map]
  · intro c h
    simp [resolve, h]

/-- Witness for `c2_row_count_and_order`: two rows, the second failing. -/
theorem c2_row_count_and_order_witness :
    (enrichDataframe (fun n : Nat => if n = 0
        then Except.ok { emptyResult with company_url := "x" }
        else Except.error ()) [0, 1] 1).length = 2 :=
  (c2_row_count_and_order _ [0, 1] 1 (by norm_num)).1

lemma toDigitsCore_length_le (b : Nat) :
    ∀ (fuel n : Nat) (ds : List Char),
      ds.length ≤ (Nat.toDigitsCore b fuel n ds).length := by
  intro fuel
  induction fuel with
  | zero => intro n ds; simp [Nat.toDigitsCore]
  | succ f ih =>
    intro n ds
    rw [Nat.toDigitsCore]
    split
    · simp
    · exact le_trans (by simp) (ih (n / b) (Nat.digitChar (n % b) :: ds))

lemma toDigits_ne_nil (b n : Nat) : Nat.toDigits b n ≠ [] := by
  unfold Nat.toDigits
  rw [Nat.toDigitsCore]
  split
  · simp
  · intro hcon
    have hlen := toDigitsCore_length_le b n (n / b) [Nat.digitChar (n % b)]
    rw [hcon] at hlen
    simp at hlen

lemma natToString_ne_empty (n : Nat) : toString n ≠ "" := by
  intro h
  have hdata : Nat.toDigits 10 n = ([] : List Char) := congrArg String.data h
  exact toDigits_ne_nil 10 n hdata

lemma hcGet_empty {y : String} (hy : y ∈ ["2024", "2023", "2022"]) :
    hcGet emptyHeadcounts y = "" := by
  fin_cases hy <;> rfl

lemma hcGet_hcSet_same (hc : Headcounts) {y : String}
    (hy : y ∈ ["2024", "2023", "2022"]) (v : String) :
    hcGet (hcSet hc y v) y = v := by
  fin_cases hy <;> simp [hcGet, hcSet]

lemma hcGet_hcSet_other (hc : Headcounts) {y z : String} (hne : z ≠ y)
    (v : String) : hcGet (hcSet hc z v) y = hcGet hc y := by
  unfold hcGet hcSet
  split_ifs <;> simp_all

lemma processFiling_slot_filled (env : DocEnv) (hc : Headcounts) (f : Filing)
    {y : String} (hfull : hcGet hc y ≠ "") :
    hcGet (processFiling env hc f) y = hcGet hc y := by
  simp only [processFiling]
  split_ifs with h1 h2 h3 h4 h5 h6 <;> try rfl
  cases hdx : docExtract (env.fetchDoc (lastPathComponent f.doc_metadata_link)) with
  | none => rfl
  | some n =>
    refine hcGet_hcSet_other hc ?_ _
    intro hyy
    rw [hyy] at h3
    exact h3 hfull

lemma processFiling_no_hit (env : DocEnv) (hc : Headcounts) (f : Filing)
    {y : String} (hy : y ∈ ["2024", "2023", "2022"])
    (hhit : filingHit env y f = none) :
    hcGet (processFiling env hc f) y = hcGet hc y := by
  simp only [processFiling]
  split_ifs with h1 h2 h3 h4 h5 h6 <;> try rfl
  cases hdx : docExtract (env.fetchDoc (lastPathComponent f.doc_metadata_link)) with
  | none => rfl
  | some n =>
    by_cases hyy : f.made_up_date.take 4 = y
    · exfalso
      have helig : filingEligible f y := ⟨h1, hyy, hy, h4, h5⟩
      unfold filingHit at hhit
      rw [if_pos helig, if_neg h6, hdx] at hhit
      exact absurd hhit (by simp)
    · exact hcGet_hcSet_other hc hyy _

lemma processFiling_hit (env : DocEnv) (hc : Headcounts) (f : Filing)
    {y : String} {n : Nat} (hy : y ∈ ["2024", "2023", "2022"])
    (hempty : hcGet hc y = "") (hhit : filingHit env y f = some n) :
    hcGet (processFiling env hc f) y = toString n := by
  simp only [filingHit] at hhit
  split_ifs at hhit with he h6
  obtain ⟨hd, hyy, _, hlink, hdoc⟩ := he
  simp only [processFiling]
  rw [if_neg hd, hyy,
    if_neg (not_not.mpr hy),
    if_neg (not_not.mpr hempty),
    if_neg hlink, if_neg hdoc, if_neg h6, hhit]
  exact hcGet_hcSet_same hc hy _

lemma hcGet_foldl (env : DocEnv) {y : String}
    (hy : y ∈ ["2024", "2023", "2022"]) :
    ∀ (fs : List Filing) (hc : Headcounts),
      hcGet (fs.foldl (processFiling env) hc) y =
        if hcGet hc y = "" then hitValue (firstHit env y fs)
        else hcGet hc y := by
  intro fs
  induction fs with
  | nil =>
    intro hc
    by_cases h : hcGet hc y = "" <;> simp [h, firstHit, hitValue]
  | cons f fs ih =>
    intro hc
    rw [List.foldl_cons, ih]
    by_cases hfull : hcGet hc y = ""
    · cases hhit : filingHit env y f with
      | some n =>
        rw [processFiling_hit env hc f hy hfull hhit,
          if_neg (natToString_ne_empty n), if_pos hfull]
        simp [firstHit, List.findSome?_cons, hhit, hitValue]
      | none =>
        rw [processFiling_no_hit env hc f hy hhit, if_pos hfull, if_pos hfull]
        simp [firstHit, List.findSome?_cons, hhit]
    · rw [processFiling_slot_filled env hc f hfull, if_neg hfull, if_neg hfull]

/-- C7: for every filing list, each tracked year's headcount equals the
first successful extraction, in filing order, among the filings eligible
for that year (valid reporting date of that year, usable document link,
nonempty document) — already-filled years are skipped and a year with no
successful extraction stays empty — and the per-document extraction tries
the structured iXBRL extractor first on documents sniffing as iXBRL,
falling back to the PDF extractor. -/
theorem c7_first_seen_per_year (env : DocEnv) (filings : List Filing)
    (y : String) (hy : y ∈ ["2024", "2023", "2022"]) :
    hcGet (extractHeadcountFromFilings env filings) y =
      hitValue (firstHit env y filings) ∧
    (∀ d : DocContent, d.sniffXbrl = true → ∀ n : Nat, d.ixbrl = some n →
      docExtract d = some n) ∧
    (∀ d : DocContent, d.sniffXbrl = false ∨ d.ixbrl = none →
      docExtract d = d.pdf) := by
  refine ⟨?_, ?_, ?_⟩
  · unfold extractHeadcountFromFilings
    cases filings with
    | nil => simp [firstHit, hitValue, hcGet_empty hy]
    | cons f fs =>
      rw [if_neg (by simp), hcGet_foldl env hy (f :: fs) emptyHeadcounts,
        if_pos (hcGet_empty hy)]
  · intro d hs n hn
    simp [docExtract, hs, hn]
  · intro d hd
    rcases hd with hd | hd <;> simp [docExtract, hd]

/-- Witness for `c7_first_seen_per_year`: two 2023 filings whose documents
both extract; the first one in filing order wins. -/
theorem c7_first_seen_per_year_witness :
    hcGet (extractHeadcountFromFilings
        ⟨fun d => if d = "abc" then ⟨false, false, none, some 12⟩
                  else ⟨false, true, some 7, none⟩⟩
        [⟨"2023-03-31", "docs/abc"⟩, ⟨"2023-06-30", "docs/xyz"⟩]) "2023" =
      hitValue (firstHit
        ⟨fun d => if d = "abc" then ⟨false, false, none, some 12⟩
                  else ⟨false, true, some 7, none⟩⟩
        "2023" [⟨"2023-03-31", "docs/abc"⟩, ⟨"2023-06-30", "docs/xyz"⟩]) :=
  (c7_first_seen_per_year _ _ "2023" (by simp)).1

lemma performEnrichment_eq {F : Type} (env : FetchEnv F) :
    performEnrichment env =
      match env.profile with
      | .error _ => performEnrichment.afterLoc env emptyResult
      | .ok p =>
        match p.registered_office_address with
        | none => performEnrichment.afterLoc env emptyResult
        | some addr =>
          match env.geocode (formatAddress addr) with
          | .error _ => emptyResult
          | .ok g =>
            performEnrichment.afterLoc env
              { emptyResult with
                manufacturing_location := pyOrStr g (formatAddress addr) } :=
  rfl

lemma afterLoc_eq {F : Type} (env : FetchEnv F) (r : EnrichmentResult) :
    performEnrichment.afterLoc env r =
      match env.findSite with
      | .error _ => r
      | .ok website =>
        match pyTruthyStr website with
        | none => step5 env r
        | some w =>
          match env.grabDesc w with
          | .error _ => { r with company_url := w }
          | .ok d => step5 env { r with company_url := w, description := d } :=
  rfl

lemma step5_congr {F : Type} {env env2 : FetchEnv F}
    (h3 : env.filings = env2.filings) (h4 : env.extractHC = env2.extractHC)
    (r : EnrichmentResult) : step5 env r = step5 env2 r := by
  simp only [step5, h3, h4]

lemma afterLoc_congr_step5 {F : Type} {env env2 : FetchEnv F}
    (r : EnrichmentResult) (h1 : env.findSite = env2.findSite)
    (h2 : env.grabDesc = env2.grabDesc) (hs : step5 env = step5 env2) :
    performEnrichment.afterLoc env r = performEnrichment.afterLoc env2 r := by
  rw [afterLoc_eq, afterLoc_eq, h1, h2, hs]

lemma afterLoc_congr {F : Type} {env env2 : FetchEnv F} (r : EnrichmentResult)
    (h1 : env.findSite = env2.findSite) (h2 : env.grabDesc = env2.grabDesc)
    (h3 : env.filings = env2.filings) (h4 : env.extractHC = env2.extractHC) :
    performEnrichment.afterLoc env r = performEnrichment.afterLoc env2 r :=
  afterLoc_congr_step5 r h1 h2 (funext (step5_congr h3 h4))

/-- C5 counterexample: the profile and filings fetches succeed (filings
nonempty, headcount extraction would return 42) and geocoding succeeds,
but the website-search await raises.  The result keeps the location set
before the raise and returns normally, yet every later step is skipped:
the headcount fields stay empty instead of being populated from the
successful filings fetch as the claim asserts. -/
theorem c5_containment_counterexample :
    performEnrichment
      ({ profile := Except.ok (Profile.mk (some (Address.mk none
           (some "1 Main St") none (some "London") none
           (some "EC1 1AA") none))),
         filings := .ok [Filing.mk "2024-01-31" "docs/abc"],
         geocode := fun _ => .ok (some "51.5,-0.1 (London)"),
         findSite := .error (),
         grabDesc := fun _ => .ok "a description",
         extractHC := fun _ => .ok (Headcounts.mk "42" "" "") } :
           FetchEnv Filing) =
      { emptyResult with manufacturing_location := "51.5,-0.1 (London)" } ∧
    ({ emptyResult with
        manufacturing_location := "51.5,-0.1 (London)" }).employees_2024
      ≠ "42" := by
  exact ⟨rfl, by simp [emptyResult]⟩

/-- C5 (amended): no exception escapes the per-record state machine, and a
step-1 fetch failure (profile or filings, delivered as a value by gather)
leaves the remaining steps attempted; but an exception raised by a later
await (geocode, website search, description scrape, headcount extraction)
is caught at the record boundary and aborts the remaining steps: fields
assigned before the raise are kept, while the failing step's field and the
fields of every later step stay empty. -/
theorem c5_containment_amended {F : Type} (env : FetchEnv F) :
    (performEnrichment { env with profile := .error () } =
      performEnrichment { env with profile := .ok (Profile.mk none) }) ∧
    (performEnrichment { env with filings := .error () } =
      performEnrichment { env with filings := .ok [] }) ∧
    (∀ p a, env.profile = .ok p → p.registered_office_address = some a →
      env.geocode (formatAddress a) = .error () →
      performEnrichment env = emptyResult) ∧
    (env.findSite = .error () →
      (performEnrichment env).company_url = "" ∧
      (performEnrichment env).description = "" ∧
      (performEnrichment env).employees_2024 = "" ∧
      (performEnrichment env).employees_2023 = "" ∧
      (performEnrichment env).employees_2022 = "") ∧
    (∀ w, env.findSite = .ok (some w) → w ≠ "" →
      env.grabDesc w = .error () →
      (performEnrichment env).description = "" ∧
      (performEnrichment env).employees_2024 = "" ∧
      (performEnrichment env).employees_2023 = "" ∧
      (performEnrichment env).employees_2022 = "") := by
  refine ⟨?_, ?_, ?_, ?_, ?_⟩
  · simp only [performEnrichment_eq]
    exact afterLoc_congr emptyResult rfl rfl rfl rfl
  · have hid : step5 ({ env with filings := .error () } : FetchEnv F) =
        step5 { env with filings := .ok [] } := by
      funext r
      simp [step5]
    cases hp : env.profile with
    | error e =>
      simp only [performEnrichment_eq, hp]
      exact afterLoc_congr_step5 emptyResult rfl rfl hid
    | ok p =>
      cases ha : p.registered_office_address with
      | none =>
        simp only [performEnrichment_eq, hp, ha]
        exact afterLoc_congr_step5 emptyResult rfl rfl hid
      | some addr =>
        cases hg : env.geocode (formatAddress addr) with
        | error e => simp only [performEnrichment_eq, hp, ha, hg]
        | ok g =>
          simp only [performEnrichment_eq, hp, ha, hg]
          exact afterLoc_congr_step5 _ rfl rfl hid
  · intro p a hp ha hg
    simp only [performEnrichment_eq, hp, ha, hg]
  · intro hf
    have hval : ∀ r : EnrichmentResult,
        performEnrichment.afterLoc env r = r := by
      intro r; simp only [afterLoc_eq, hf]
    cases hp : env.profile with
    | error e =>
      simp only [performEnrichment_eq, hp, hval]
      exact ⟨rfl, rfl, rfl, rfl, rfl⟩
    | ok p =>
      cases ha : p.registered_office_address with
      | none =>
        simp only [performEnrichment_eq, hp, ha, hval]
        exact ⟨rfl, rfl, rfl, rfl, rfl⟩
      | some addr =>
        cases hg : env.geocode (formatAddress addr) with
        | error e =>
          simp only [performEnrichment_eq, hp, ha, hg]
          exact ⟨rfl, rfl, rfl, rfl, rfl⟩
        | ok g =>
          simp only [performEnrichment_eq, hp, ha, hg, hval]
          exact ⟨rfl, rfl, rfl, rfl, rfl⟩
  · intro w hf hw hd
    have hval : ∀ r : EnrichmentResult,
        performEnrichment.afterLoc env r = { r with company_url := w } := by
      intro r
      simp only [afterLoc_eq, hf, pyTruthyStr, if_neg hw, hd]
    cases hp : env.profile with
    | error e =>
      simp only [performEnrichment_eq, hp, hval]
      exact ⟨rfl, rfl, rfl, rfl⟩
    | ok p =>
      cases ha : p.registered_office_address with
      | none =>
        simp only [performEnrichment_eq, hp, ha, hval]
        exact ⟨rfl, rfl, rfl, rfl⟩
      | some addr =>
        cases hg : env.geocode (formatAddress addr) with
        | error e =>
          simp only [performEnrichment_eq, hp, ha, hg]
          exact ⟨rfl, rfl, rfl, rfl⟩
        | ok g =>
          simp only [performEnrichment_eq, hp, ha, hg, hval]
          exact ⟨rfl, rfl, rfl, rfl⟩

/-- Witness for `c5_containment_amended`: a record whose website search
raises ends with an empty website field and no escaped exception. -/
theorem c5_containment_amended_witness :
    (performEnrichment
      ({ profile := .error (),
         filings := .error (),
         geocode := fun _ => .ok none,
         findSite := .error (),
         grabDesc := fun _ => .ok "",
         extractHC := fun _ => .ok emptyHeadcounts } :
           FetchEnv Filing)).company_url = "" :=
  ((c5_containment_amended _).2.2.2.1 rfl).1

/-- C1: checkpoint/resume round-trip at the failing input of 3 rows with
checkpoint interval 1.  An uninterrupted run leaves all 3 merged rows in
the output file; killing after the second checkpoint leaves rows 0-1;
resuming re-slices the input by the existing output's 2 rows and re-runs
`enrich_dataframe` over the 1-row suffix, whose overwrite-mode checkpoints
replace the file with only that suffix — the final file has 1 row, not the
3 identical rows the claim requires. -/
theorem c1_resume_loses_rows :
    fileAfterRun (fun _ : Nat => Except.ok emptyResult) [0, 1, 2] 1 [] =
      [(0, emptyResult), (1, emptyResult), (2, emptyResult)] ∧
    fileAfterTwoCheckpoints (fun _ : Nat => Except.ok emptyResult) [0, 1, 2] 1 =
      [(0, emptyResult), (1, emptyResult)] ∧
    cliResumeRun (fun _ : Nat => Except.ok emptyResult) [0, 1, 2] 1
        [(0, emptyResult), (1, emptyResult)] =
      [(2, emptyResult)] ∧
    [(2, emptyResult)] ≠
      [(0, emptyResult), (1, emptyResult), (2, emptyResult)] := by
  refine ⟨?_, ?_, ?_, by simp⟩
  · norm_num [fileAfterRun, enrichLoop, chunksOf, windowStep, mergeResults,
      resolve, List.getLastD]
  · norm_num [fileAfterTwoCheckpoints, enrichLoop, chunksOf, windowStep,
      mergeResults, resolve, List.getD]
  · norm_num [cliResumeRun, fileAfterRun, enrichLoop, chunksOf, windowStep,
      mergeResults, resolve, List.getLastD]

end CompanyEnricher
